import Mathlib

/-!
Verification of the BQML-to-GA export pipeline (`bqml/pipeline/main.py`).

The development shallowly embeds the batch construction and submission
engine, the run-outcome controller, and the (spec-modelled) retry
executor, and proves the behavioural properties stated in the design
document against those definitions.

External collaborators (BigQuery, the GA Management API, the network,
SendGrid) are modelled as explicit parameters: the row set returned by
the prediction query is a list of records, the HTTP status code of the
n-th batch POST is given by a function `Nat → Int`, and the outcomes of
the two retry-wrapped side effects are given by functions returning
`Except`.  `Except.error m` models a raised Python exception whose
`str()` is `m`.
-/

/-- One row of the BQML result set: an ordered mapping from column name
to (string-converted) value, as iterated by `bq_results_row.iteritems()`. -/
abbrev Record := List (String × String)

/-- A Measurement Protocol hit: the Python dict `hit_data`, modelled as
an insertion-ordered association list with pairwise-distinct keys. -/
abbrev Hit := List (String × String)

/-- Membership test `k in d` for the Python-dict model. -/
def dictContains (d : List (String × String)) (k : String) : Bool :=
  d.any (fun p => p.1 == k)

/-- Python dict assignment `d[k] = v`: overwrites the value at an existing
key in place, otherwise appends the new pair at the end (insertion order). -/
def dictInsert (d : List (String × String)) (k v : String) : List (String × String) :=
  if dictContains d k then d.map (fun p => if p.1 == k then (k, v) else p)
  else d ++ [(k, v)]

/-- Python dict lookup `d.get(k)` for the dict model. -/
def dictGet (d : List (String × String)) (k : String) : Option String :=
  (d.find? (fun p => p.1 == k)).map Prod.snd

/-- The per-row hit construction in `write_to_ga_via_mp` (main.py lines
205-212): start from an empty dict, insert each default field of
`GA_MP_STANDARD_HIT_DETAILS` whose value is truthy (non-empty), then
insert every column of the BigQuery row, the row value overwriting any
default on a key collision. -/
def build_hit (defaults : List (String × String)) (row : Record) : Hit :=
  row.foldl (fun d p => dictInsert d p.1 p.2)
    (defaults.foldl (fun d p => if p.2 ≠ "" then dictInsert d p.1 p.2 else d) [])

/-- Bytes left unescaped by Python `urllib.parse.quote_plus`: ASCII
letters, digits, and the characters `_`, `.`, `-`, `~`. -/
def isUrlSafeByte (n : Nat) : Bool :=
  (65 ≤ n && n ≤ 90) || (97 ≤ n && n ≤ 122) || (48 ≤ n && n ≤ 57) ||
  n == 95 || n == 46 || n == 45 || n == 126

/-- Uppercase hexadecimal digit, as produced by Python percent-escapes. -/
def hexDigitChar (n : Nat) : Char :=
  if n < 10 then Char.ofNat (48 + n) else Char.ofNat (55 + n)

/-- Python `urllib.parse.quote_plus` on the UTF-8 encoding of `s`: a
space becomes `+`, safe bytes stand for themselves, every other byte is
percent-escaped. -/
def quotePlus (s : String) : String :=
  String.join ((String.toUTF8 s).data.toList.map (fun b =>
    let n := b.toNat
    if n == 32 then "+"
    else if isUrlSafeByte n then String.singleton (Char.ofNat n)
    else "%" ++ String.singleton (hexDigitChar (n / 16)) ++ String.singleton (hexDigitChar (n % 16))))

/-- One `k=v` component of `urllib.parse.urlencode`. -/
def urlencodePair (p : String × String) : String :=
  quotePlus p.1 ++ "=" ++ quotePlus p.2

/-- Python `urllib.parse.urlencode` on a list of pairs: the components
joined with `&`. -/
def urlencode (l : List (String × String)) : String :=
  String.intercalate "&" (l.map urlencodePair)

/-- Insertion step of the key-ascending sort performed by
`sorted(..., key=lambda t: t[0])` in `prepare_payloads_for_batch_request`. -/
def insertPair (x : String × String) : List (String × String) → List (String × String)
  | [] => [x]
  | y :: ys => if x.1 < y.1 then x :: y :: ys else y :: insertPair x ys

/-- Sort a list of key/value pairs by key in ascending lexicographic
order (the `sorted(..., key=lambda t: t[0])` call). -/
def sortPairs (l : List (String × String)) : List (String × String) :=
  l.foldr insertPair []

/-- `prepare_payloads_for_batch_request` (main.py lines 177-191): each
payload dict has its pairs UTF-8 encoded and sorted by key, is
URL-form-encoded into one query-string line, and the lines are joined
with a newline separator. -/
def prepare_payloads_for_batch_request (payloads : List Hit) : String :=
  String.intercalate "\n" (payloads.map (fun p => urlencode (sortPairs p)))

/-- Python `x in range(lo, hi)` for an integer `x`. -/
def pyInRange (x lo hi : Int) : Bool :=
  decide (lo ≤ x) && decide (x < hi)

/-- `send_mp_hit` (main.py lines 146-174): submit one batch payload and
classify it by the response status code.  The test in the source is
`response.status_code not in range(200, 299)`; the function appends the
payload to the failed list and returns, or appends it to the success
list and returns.  No exception is raised on a non-2xx status; the
status code of the POST is a parameter here (the network is external). -/
def send_mp_hit (payload_send : String) (status_code : Int)
    (success_requests failed_requests : List String) : List String × List String :=
  if !(pyInRange status_code 200 299) then
    (success_requests, failed_requests ++ [payload_send])
  else
    (success_requests ++ [payload_send], failed_requests)

/-- The grouping logic of the loop in `write_to_ga_via_mp` (main.py
lines 200-233), isolated from submission: `i` is the running counter,
the third argument is the pending `payload_list`; a batch is emitted
when the incremented counter reaches a multiple of 20, and the pending
remainder is emitted at stream end when `i > 0`. -/
def accumulateBatches : List Hit → Nat → List Hit → List (List Hit)
  | [], i, payload_list => if 0 < i then [payload_list] else []
  | h :: rest, i, payload_list =>
    let i2 := i + 1
    let pl2 := payload_list ++ [h]
    if i2 % 20 = 0 then pl2 :: accumulateBatches rest 0 []
    else accumulateBatches rest i2 pl2

/-- Batches produced from a hit stream, starting from the initial state
`i = 0`, `payload_list = []`. -/
def batchesOf (hits : List Hit) : List (List Hit) :=
  accumulateBatches hits 0 []

/-- The full row loop of `write_to_ga_via_mp` (main.py lines 200-233):
for each row build the hit dict, append it to `payload_list`, and when
the counter reaches 20 encode the pending batch and submit it via
`send_mp_hit`, threading the success/failure lists; after the loop the
remaining items are submitted when `i > 0`.  `status n` is the HTTP
status code answered to the n-th POST. -/
def mpLoopGo (status : Nat → Int) (defaults : List (String × String)) :
    List Record → Nat → List Hit → List String × List String → Nat →
    List String × List String
  | [], i, payload_list, sf, calls =>
    if 0 < i then
      send_mp_hit (prepare_payloads_for_batch_request payload_list) (status calls) sf.1 sf.2
    else sf
  | row :: rest, i, payload_list, sf, calls =>
    let hit_data := build_hit defaults row
    let i2 := i + 1
    let pl2 := payload_list ++ [hit_data]
    if i2 % 20 = 0 then
      mpLoopGo status defaults rest 0 []
        (send_mp_hit (prepare_payloads_for_batch_request pl2) (status calls) sf.1 sf.2)
        (calls + 1)
    else mpLoopGo status defaults rest i2 pl2 sf calls

/-- The success/failure lists accumulated by `write_to_ga_via_mp` once
every batch has been submitted (state just before main.py line 235). -/
def mpSubmitAll (status : Nat → Int) (defaults : List (String × String))
    (df : List Record) : List String × List String :=
  mpLoopGo status defaults df 0 [] ([], []) 0

/-- The message of the Python `TypeError` raised by
`"Failed request details: " + failed_requests` (a `str` plus a `list`). -/
def typeErrorStrList : String := "can only concatenate str (not \"list\") to str"

/-- The final report of `write_to_ga_via_mp` (main.py lines 235-239):
the counts are printed, then, when `failed_requests` is non-empty, the
diagnostic print concatenates a string with a list and raises
`TypeError`. -/
def mpReport (failed_requests : List String) : Except String Unit :=
  if failed_requests.isEmpty then Except.ok () else Except.error typeErrorStrList

/-- `write_to_ga_via_mp` (main.py lines 194-239) end to end: submit all
batches, then run the final report; the report raises exactly when some
batch failed. -/
def write_to_ga_via_mp (status : Nat → Int) (defaults : List (String × String))
    (df : List Record) : Except String (List String × List String) :=
  let sf := mpSubmitAll status defaults df
  match mpReport sf.2 with
  | Except.ok _ => Except.ok sf
  | Except.error e => Except.error e

/-- Modelled from the spec: the backoff of the bounded-retry executor
applied to `write_to_bq_logs` and `send_email`.  The executor itself is
the third-party `retry` decorator (`stop_max_attempt_number=5,
wait_exponential_multiplier=1000, wait_exponential_max=10000`), whose
implementation is not part of this repository; per the design document,
attempt 1 has no wait and the wait before attempt `k` (k ≥ 2) is
`min(baseWaitMs * 2^(k-2), maxWaitMs)` milliseconds. -/
def retryWait (baseWaitMs maxWaitMs k : Nat) : Nat :=
  if k ≤ 1 then 0 else min (baseWaitMs * 2 ^ (k - 2)) maxWaitMs

/-- The increasing sequence `[k, k+1, ..., k+n-1]` of attempt indices. -/
def natSeq (k : Nat) : Nat → List Nat
  | 0 => []
  | n + 1 => k :: natSeq (k + 1) n

/-- Modelled from the spec: the attempt loop of the bounded-retry
executor (third-party `retry` decorator, not part of this repository).
`op j` is the outcome of the j-th invocation of the wrapped operation;
`k` is the current attempt index and the second argument the number of
attempts still allowed after it.  Returns the final result together
with the list of attempt indices actually invoked: a successful attempt
returns its result immediately, and when every attempt fails the last
failure propagates. -/
def retryRunTr {α : Type} (op : Nat → Except String α) :
    Nat → Nat → Except String α × List Nat
  | k, 0 => (op k, [k])
  | k, n + 1 =>
    match op k with
    | Except.ok a => (Except.ok a, [k])
    | Except.error _ =>
      let r := retryRunTr op (k + 1) n
      (r.1, k :: r.2)

/-- Modelled from the spec: the retry executor with the configuration
used for both `write_to_bq_logs` and `send_email` — at most 5 attempts,
starting at attempt 1. -/
def retryExecute {α : Type} (op : Nat → Except String α) :
    Except String α × List Nat :=
  retryRunTr op 1 4

/-- A side-effect invocation observable on the controller: one call of
the retry-wrapped `write_to_bq_logs` or `send_email`. -/
inductive Eff
  | log (status message : String)
  | email (message : String)
deriving DecidableEq

/-- The static configuration read by the controller: `GA_IMPORT_METHOD`,
`GA_MP_STANDARD_HIT_DETAILS`, `ENABLE_BQ_LOGGING`,
`ENABLE_SENDGRID_EMAIL_REPORTING`. -/
structure Config where
  mode : String
  defaults : List (String × String)
  enabledLogging : Bool
  enabledEmail : Bool

/-- The external collaborators of one run: the BigQuery read, the
data-import path (three Management API calls), the Measurement Protocol
endpoint's status codes, and the outcomes of the two retry-wrapped side
effects (`Except.ok` when some attempt succeeded, `Except.error m` when
all attempts failed and the last exception, with message `m`,
propagates). -/
structure Env where
  readResult : Except String (List Record)
  diResult : Except String Unit
  statuses : Nat → Int
  logWrite : String → String → Except String Unit
  emailSend : String → Except String Unit

/-- The transform-and-submit flow inside the `try` of `trigger_workflow`
(main.py lines 297-306): read from BigQuery, dispatch on
`GA_IMPORT_METHOD`, and raise `Exception("GA Export Method not found.")`
for any other mode value. -/
def runFlow (cfg : Config) (env : Env) : Except String Unit :=
  match env.readResult with
  | Except.error e => Except.error e
  | Except.ok df =>
    if cfg.mode = "di" then env.diResult
    else if cfg.mode = "mp" then
      match write_to_ga_via_mp env.statuses cfg.defaults df with
      | Except.ok _ => Except.ok ()
      | Except.error e => Except.error e
    else Except.error "GA Export Method not found."

/-- Second half of the `except` branch of `trigger_workflow` (main.py
lines 314-317): the optional alert email, then the composed ERROR
outcome string.  An exception raised by the retried email send is not
caught and escapes (outer `Except.error`). -/
def handleError2 (cfg : Config) (env : Env) (ts e : String) (tr : List Eff) :
    Except String String × List Eff :=
  if cfg.enabledEmail then
    match env.emailSend e with
    | Except.error e2 => (Except.error e2, tr ++ [Eff.email e])
    | Except.ok _ => (Except.ok (ts ++ ",ERROR," ++ e), tr ++ [Eff.email e])
  else (Except.ok (ts ++ ",ERROR," ++ e), tr)

/-- The `except` branch of `trigger_workflow` (main.py lines 311-317):
the optional retried log write with `(ERROR, str(e))`, whose own
exception is not caught and escapes, then the email and the outcome
string.  `tr` is the trace of side-effect invocations already made. -/
def handleError (cfg : Config) (env : Env) (ts e : String) (tr : List Eff) :
    Except String String × List Eff :=
  if cfg.enabledLogging then
    match env.logWrite "ERROR" e with
    | Except.error e2 => (Except.error e2, tr ++ [Eff.log "ERROR" e])
    | Except.ok _ => handleError2 cfg env ts e (tr ++ [Eff.log "ERROR" e])
  else handleError2 cfg env ts e tr

/-- `trigger_workflow` (main.py lines 287-317): run the flow inside
`try`; on success, the optional retried SUCCESS log write (still inside
the `try`, so its exception is caught by the handler) and the
`"<timestamp>,SUCCESS"` return; on any exception, the `except` branch.
The result is the returned outcome string (`Except.ok`) or the escaped
exception (`Except.error`), paired with the trace of side-effect
invocations. -/
def trigger_workflow (cfg : Config) (env : Env) (ts : String) :
    Except String String × List Eff :=
  match runFlow cfg env with
  | Except.ok _ =>
    if cfg.enabledLogging then
      match env.logWrite "SUCCESS" "" with
      | Except.ok _ => (Except.ok (ts ++ ",SUCCESS"), [Eff.log "SUCCESS" ""])
      | Except.error e => handleError cfg env ts e [Eff.log "SUCCESS" ""]
    else (Except.ok (ts ++ ",SUCCESS"), [])
  | Except.error e => handleError cfg env ts e []

/-- The 45-row result set of the documented scenario: every row has the
single column `cid` with value `x`. -/
def c1df : List Record := List.replicate 45 [("cid", "x")]

/-- Endpoint behaviour of the documented scenario: the middle batch
(call index 1) answers 500, the others 200. -/
def c1status : Nat → Int := fun n => if n = 1 then 500 else 200

/-- Trace length bound for the retry loop: starting with `n` attempts
remaining after the current one, at most `n + 1` invocations happen. -/
theorem retryRunTr_len {α : Type} (op : Nat → Except String α) :
    ∀ (n k : Nat), (retryRunTr op k n).2.length ≤ n + 1 := by
  intro n
  induction n with
  | zero => intro k; simp [retryRunTr]
  | succ n ih =>
    intro k
    simp only [retryRunTr]
    cases hop : op k with
    | ok a => simp
    | error e =>
      simp only [List.length_cons]
      exact Nat.succ_le_succ (ih (k + 1))

/-- If every attempt before `j` fails and attempt `j` succeeds within
the budget, the loop returns attempt `j`'s result immediately, having
invoked exactly the attempts `k .. j`. -/
theorem retryRunTr_ok {α : Type} (op : Nat → Except String α) :
    ∀ (n k j : Nat) (a : α), k ≤ j → j ≤ k + n →
      (∀ i, k ≤ i → i < j → ∃ e, op i = Except.error e) →
      op j = Except.ok a →
      retryRunTr op k n = (Except.ok a, natSeq k (j - k + 1)) := by
  intro n
  induction n with
  | zero =>
    intro k j a hkj hjk _ hok
    have hj : j = k := by omega
    subst hj
    simp [retryRunTr, natSeq, hok]
  | succ n ih =>
    intro k j a hkj hjk hfail hok
    by_cases hjeq : j = k
    · subst hjeq
      simp [retryRunTr, hok, natSeq]
    · have hklt : k < j := by omega
      obtain ⟨e, he⟩ := hfail k (Nat.le_refl k) hklt
      simp only [retryRunTr, he]
      rw [ih (k + 1) j a (by omega) (by omega)
        (fun i h1 h2 => hfail i (by omega) h2) hok]
      have hns : j - k + 1 = (j - (k + 1) + 1) + 1 := by omega
      rw [hns]
      simp [natSeq]

/-- If every attempt in the budget fails, the loop invokes all of them
and returns the last failure. -/
theorem retryRunTr_fail {α : Type} (op : Nat → Except String α) :
    ∀ (n k : Nat), (∀ i, k ≤ i → i ≤ k + n → ∃ e, op i = Except.error e) →
      ∃ e, op (k + n) = Except.error e ∧
        retryRunTr op k n = (Except.error e, natSeq k (n + 1)) := by
  intro n
  induction n with
  | zero =>
    intro k hfail
    obtain ⟨e, he⟩ := hfail k (Nat.le_refl k) (by omega)
    exact ⟨e, by simpa using he, by simp [retryRunTr, natSeq, he]⟩
  | succ n ih =>
    intro k hfail
    obtain ⟨e0, he0⟩ := hfail k (Nat.le_refl k) (by omega)
    obtain ⟨e, he, hr⟩ := ih (k + 1) (fun i h1 h2 => hfail i (by omega) (by omega))
    refine ⟨e, ?_, ?_⟩
    · have harith : k + (n + 1) = k + 1 + n := by omega
      rw [harith]
      exact he
    · simp only [retryRunTr, he0]
      rw [hr]
      simp [natSeq]

/-- C3: the retry executor wrapping the log-write and email-send
operations invokes the wrapped operation at most 5 times; a successful
attempt returns its result immediately with no further attempts; if all
5 attempts fail the last failure propagates; attempt 1 has no wait and
the waits before attempts 2..5 are min(1000 * 2^(k-2), 10000) ms,
i.e. 1000, 2000, 4000, 8000 ms. -/
theorem c3_retry_executor {α : Type} (op : Nat → Except String α) :
    (retryExecute op).2.length ≤ 5
    ∧ (∀ (k : Nat) (a : α), 1 ≤ k → k ≤ 5 →
        (∀ j, 1 ≤ j → j < k → ∃ e, op j = Except.error e) →
        op k = Except.ok a →
        retryExecute op = (Except.ok a, natSeq 1 k))
    ∧ ((∀ j, 1 ≤ j → j ≤ 5 → ∃ e, op j = Except.error e) →
        ∃ e, op 5 = Except.error e
          ∧ retryExecute op = (Except.error e, [1, 2, 3, 4, 5]))
    ∧ retryWait 1000 10000 1 = 0
    ∧ (∀ k, 2 ≤ k → retryWait 1000 10000 k = min (1000 * 2 ^ (k - 2)) 10000)
    ∧ List.map (retryWait 1000 10000) [2, 3, 4, 5] = [1000, 2000, 4000, 8000] := by
  refine ⟨retryRunTr_len op 4 1, ?_, ?_, rfl, ?_, by decide⟩
  · intro k a h1 h5 hfail hok
    have h := retryRunTr_ok op 4 1 k a h1 (by omega) hfail hok
    rwa [show k - 1 + 1 = k from by omega] at h
  · intro hfail
    obtain ⟨e, he, hr⟩ := retryRunTr_fail op 4 1 (fun i hi1 hi2 => hfail i hi1 (by omega))
    exact ⟨e, he, by simpa [natSeq] using hr⟩
  · intro k hk
    rw [retryWait, if_neg (by omega)]

/-- Witness for C3: an operation failing on every attempt is invoked
exactly five times and its last failure propagates. -/
theorem c3_retry_executor_witness :
    retryExecute (fun _ => Except.error (α := Unit) "boom")
      = (Except.error "boom", [1, 2, 3, 4, 5]) := by
  obtain ⟨e, he, hr⟩ :=
    (c3_retry_executor (fun _ => Except.error (α := Unit) "boom")).2.2.1
      (fun j h1 h2 => ⟨"boom", rfl⟩)
  cases he
  exact hr

/-- Counterexample for C2 as stated: status code 299 lies in the
inclusive range [200, 299], yet the submitter appends the payload to the
failure list, because the source tests membership in `range(200, 299)`,
which excludes 299. -/
theorem c2_counterexample : send_mp_hit "p" 299 [] [] = ([], ["p"]) := rfl

/-- C2 (amended): the submitter classifies by status code: every status
in [200, 298] appends the payload to the success list, and every status
outside that range — including 299 — appends it to the failure list; in
either case the function returns the updated pair, raising no
exception. -/
theorem c2_status_classification (p : String) (s : Int) (succ fail : List String) :
    (200 ≤ s ∧ s ≤ 298 → send_mp_hit p s succ fail = (succ ++ [p], fail))
    ∧ (s < 200 ∨ 299 ≤ s → send_mp_hit p s succ fail = (succ, fail ++ [p])) := by
  constructor
  · rintro ⟨h1, h2⟩
    rw [send_mp_hit, pyInRange, decide_eq_true h1, decide_eq_true (show s < 299 by omega)]
    rfl
  · intro h
    have hout : ¬(200 ≤ s ∧ s < 299) := by omega
    rw [send_mp_hit, pyInRange]
    rw [if_pos]
    simp only [Bool.not_eq_true', Bool.and_eq_false_iff, decide_eq_false_iff_not]
    omega

/-- Witness for C2 (amended): status 250 is recorded as a success,
status 299 as a failure. -/
theorem c2_status_classification_witness :
    send_mp_hit "x" 250 [] [] = (["x"], [])
    ∧ send_mp_hit "x" 299 [] [] = ([], ["x"]) :=
  ⟨(c2_status_classification "x" 250 [] []).1 (by omega),
   (c2_status_classification "x" 299 [] []).2 (by omega)⟩

/-- C8: for every delivery-mode value other than "di" and "mp" the
controller returns (does not raise) the ERROR outcome string whose
message is exactly the fixed diagnostic "GA Export Method not found.",
provided the BigQuery read succeeds and the retry-wrapped side effects
do not themselves exhaust their attempts. -/
theorem c8_unknown_mode (cfg : Config) (env : Env) (ts : String) (df : List Record)
    (h1 : cfg.mode ≠ "di") (h2 : cfg.mode ≠ "mp")
    (h3 : env.readResult = Except.ok df)
    (h4 : ∀ s m, env.logWrite s m = Except.ok ())
    (h5 : ∀ m, env.emailSend m = Except.ok ()) :
    (trigger_workflow cfg env ts).1
      = Except.ok (ts ++ ",ERROR," ++ "GA Export Method not found.") := by
  have hflow : runFlow cfg env = Except.error "GA Export Method not found." := by
    simp [runFlow, h3, h1, h2]
  cases hcl : cfg.enabledLogging <;> cases hce : cfg.enabledEmail <;>
    simp [trigger_workflow, hflow, handleError, handleError2, h4, h5, hcl, hce]

/-- Witness for C8: a concrete run with mode "xx" returns the ERROR
outcome with the configuration diagnostic. -/
theorem c8_unknown_mode_witness :
    (trigger_workflow ⟨"xx", [], true, true⟩
        ⟨Except.ok [], Except.ok (), fun _ => 200, fun _ _ => Except.ok (),
         fun _ => Except.ok ()⟩ "T").1
      = Except.ok ("T" ++ ",ERROR," ++ "GA Export Method not found.") :=
  c8_unknown_mode ⟨"xx", [], true, true⟩
    ⟨Except.ok [], Except.ok (), fun _ => 200, fun _ _ => Except.ok (),
     fun _ => Except.ok ()⟩ "T" []
    (by decide) (by decide) rfl (fun _ _ => rfl) (fun _ => rfl)

/-- C9 (amended): when the flow has raised and logging is enabled, an
ERROR-path log write that exhausts its attempts escapes the controller:
the result is the escaped exception, the email send is never attempted
(the trace holds only the log invocation) and no outcome string is
returned.  This is, however, not the only way the controller can fail
to return a value: an ERROR-path email send that exhausts its attempts
escapes in the same way. -/
theorem c9_side_effect_escape (cfg : Config) (env : Env) (ts m m2 : String) :
    (cfg.enabledLogging = true → runFlow cfg env = Except.error m →
      env.logWrite "ERROR" m = Except.error m2 →
      trigger_workflow cfg env ts = (Except.error m2, [Eff.log "ERROR" m]))
    ∧ (cfg.enabledLogging = false → cfg.enabledEmail = true →
      runFlow cfg env = Except.error m →
      env.emailSend m = Except.error m2 →
      trigger_workflow cfg env ts = (Except.error m2, [Eff.email m])) := by
  constructor
  · intro hl hf hw
    simp [trigger_workflow, hf, handleError, hl, hw]
  · intro hl he hf hw
    simp [trigger_workflow, hf, handleError, handleError2, hl, he, hw]

/-- Witness for C9: both escape shapes, on concrete runs. -/
theorem c9_side_effect_escape_witness :
    trigger_workflow ⟨"mp", [], true, true⟩
        ⟨Except.error "boom", Except.ok (), fun _ => 200,
         fun _ _ => Except.error "log dead", fun _ => Except.ok ()⟩ "T"
      = (Except.error "log dead", [Eff.log "ERROR" "boom"])
    ∧ trigger_workflow ⟨"mp", [], false, true⟩
        ⟨Except.error "boom", Except.ok (), fun _ => 200,
         fun _ _ => Except.ok (), fun _ => Except.error "Email not sent."⟩ "T"
      = (Except.error "Email not sent.", [Eff.email "boom"]) :=
  ⟨(c9_side_effect_escape ⟨"mp", [], true, true⟩
      ⟨Except.error "boom", Except.ok (), fun _ => 200,
       fun _ _ => Except.error "log dead", fun _ => Except.ok ()⟩
      "T" "boom" "log dead").1 rfl rfl rfl,
   (c9_side_effect_escape ⟨"mp", [], false, true⟩
      ⟨Except.error "boom", Except.ok (), fun _ => 200,
       fun _ _ => Except.ok (), fun _ => Except.error "Email not sent."⟩
      "T" "boom" "Email not sent.").2 rfl rfl rfl rfl⟩

/-- Counterexample for C9's uniqueness clause: a run with logging
disabled (so no log write can be the cause) in which the controller
still fails to return a value, because the ERROR-path email send
exhausts its attempts and escapes. -/
theorem c9_counterexample :
    (trigger_workflow ⟨"mp", [], false, true⟩
        ⟨Except.error "boom", Except.ok (), fun _ => 200,
         fun _ _ => Except.ok (), fun _ => Except.error "Email not sent."⟩ "T").1
      = Except.error "Email not sent."
    ∧ (⟨"mp", [], false, true⟩ : Config).enabledLogging = false :=
  ⟨rfl, rfl⟩

/-- C10: when the flow completes without raising, logging is enabled
and the SUCCESS-path log write exhausts its attempts and raises, the
controller does not return SUCCESS: the exception is caught, the run is
reclassified ERROR, the ERROR-path log write — and, exactly when email
is enabled, the alert email — are invoked with the log-write failure's
message, and the returned string has status ERROR.  Holds for either
setting of the email flag. -/
theorem c10_success_log_exhaustion (cfg : Config) (env : Env) (ts m : String)
    (hl : cfg.enabledLogging = true)
    (hf : runFlow cfg env = Except.ok ())
    (h1 : env.logWrite "SUCCESS" "" = Except.error m)
    (h2 : env.logWrite "ERROR" m = Except.ok ())
    (h3 : cfg.enabledEmail = true → env.emailSend m = Except.ok ()) :
    trigger_workflow cfg env ts
      = (Except.ok (ts ++ ",ERROR," ++ m),
         [Eff.log "SUCCESS" "", Eff.log "ERROR" m]
           ++ (if cfg.enabledEmail then [Eff.email m] else [])) := by
  cases he : cfg.enabledEmail with
  | true =>
    simp [trigger_workflow, hf, hl, h1, handleError, h2, handleError2, he, h3 he]
  | false =>
    simp [trigger_workflow, hf, hl, h1, handleError, h2, handleError2, he]

/-- Witness for C10: a concrete successful flow whose SUCCESS log write
dies is reclassified and reported as ERROR, with the alert email sent
when enabled and skipped when disabled. -/
theorem c10_success_log_exhaustion_witness :
    trigger_workflow ⟨"mp", [], true, true⟩
        ⟨Except.ok [], Except.ok (), fun _ => 200,
         fun s _ => if s = "SUCCESS" then Except.error "log dead" else Except.ok (),
         fun _ => Except.ok ()⟩ "T"
      = (Except.ok ("T" ++ ",ERROR," ++ "log dead"),
         [Eff.log "SUCCESS" "", Eff.log "ERROR" "log dead", Eff.email "log dead"])
    ∧ trigger_workflow ⟨"mp", [], true, false⟩
        ⟨Except.ok [], Except.ok (), fun _ => 200,
         fun s _ => if s = "SUCCESS" then Except.error "log dead" else Except.ok (),
         fun _ => Except.ok ()⟩ "T"
      = (Except.ok ("T" ++ ",ERROR," ++ "log dead"),
         [Eff.log "SUCCESS" "", Eff.log "ERROR" "log dead"]) :=
  ⟨c10_success_log_exhaustion ⟨"mp", [], true, true⟩
    ⟨Except.ok [], Except.ok (), fun _ => 200,
     fun s _ => if s = "SUCCESS" then Except.error "log dead" else Except.ok (),
     fun _ => Except.ok ()⟩ "T" "log dead" rfl rfl rfl rfl (fun _ => rfl),
   c10_success_log_exhaustion ⟨"mp", [], true, false⟩
    ⟨Except.ok [], Except.ok (), fun _ => 200,
     fun s _ => if s = "SUCCESS" then Except.error "log dead" else Except.ok (),
     fun _ => Except.ok ()⟩ "T" "log dead" rfl rfl rfl rfl (fun _ => rfl)⟩

/-- C1: on the documented scenario — 45 hits, batch size 20, the middle
batch answering 500 — all three batches (sizes [20, 20, 5]) are
submitted and the report counts 2 successes and 1 failure; but the run
does not complete without raising: the failed-details print concatenates
a string with a list, so `write_to_ga_via_mp` raises `TypeError` and the
controller classifies the run ERROR instead of SUCCESS. -/
theorem c1_failed_batch_scenario :
    (mpSubmitAll c1status [] c1df).1.length = 2
    ∧ (mpSubmitAll c1status [] c1df).2.length = 1
    ∧ (batchesOf (c1df.map (build_hit []))).map List.length = [20, 20, 5]
    ∧ write_to_ga_via_mp c1status [] c1df = Except.error typeErrorStrList
    ∧ (trigger_workflow ⟨"mp", [], false, false⟩
          ⟨Except.ok c1df, Except.ok (), c1status, fun _ _ => Except.ok (),
           fun _ => Except.ok ()⟩ "T").1
        = Except.ok ("T" ++ ",ERROR," ++ typeErrorStrList) :=
  ⟨rfl, rfl, rfl, rfl, rfl⟩

/-- Unrolling of the accumulator from any mid-stream state: with `i`
pending hits (i < 20), either the stream ends below a full batch, or the
first emitted batch completes at 20 and the rest restarts from the
empty state. -/
theorem accum_general :
    ∀ (rest cur : List Hit) (i : Nat), i = cur.length → i < 20 →
      accumulateBatches rest i cur =
        if i + rest.length = 0 then []
        else if i + rest.length < 20 then [cur ++ rest]
        else (cur ++ rest.take (20 - i)) :: accumulateBatches (rest.drop (20 - i)) 0 [] := by
  intro rest
  induction rest with
  | nil =>
    intro cur i hi hlt
    simp only [accumulateBatches, List.length_nil, Nat.add_zero, List.append_nil]
    by_cases h0 : i = 0
    · subst h0
      have : cur = [] := List.eq_nil_of_length_eq_zero hi.symm
      simp [this]
    · rw [if_pos (Nat.pos_of_ne_zero h0), if_neg h0, if_pos hlt]
  | cons h t ih =>
    intro cur i hi hlt
    simp only [accumulateBatches, List.length_cons]
    by_cases h19 : i = 19
    · rw [if_pos (show (i + 1) % 20 = 0 by omega)]
      rw [if_neg (show ¬(i + (t.length + 1) = 0) by omega),
          if_neg (show ¬(i + (t.length + 1) < 20) by omega)]
      rw [show 20 - i = 1 by omega]
      simp
    · rw [if_neg (show ¬((i + 1) % 20 = 0) by omega)]
      rw [ih (cur ++ [h]) (i + 1) (by simp [hi]) (by omega)]
      rw [if_neg (show ¬(i + 1 + t.length = 0) by omega),
          if_neg (show ¬(i + (t.length + 1) = 0) by omega)]
      by_cases hlt20 : i + 1 + t.length < 20
      · rw [if_pos hlt20, if_pos (show i + (t.length + 1) < 20 by omega)]
        simp
      · rw [if_neg hlt20, if_neg (show ¬(i + (t.length + 1) < 20) by omega)]
        rw [show 20 - i = (20 - (i + 1)) + 1 by omega]
        simp

/-- Shape of the batches produced from `N` hits: `⌊N/20⌋` full batches
of 20 followed by a remainder batch of `N mod 20` exactly when the
remainder is non-zero, and flattening the batches restores the stream. -/
theorem batchesOf_spec : ∀ (N : Nat) (hits : List Hit), hits.length = N →
    (batchesOf hits).map List.length
        = List.replicate (hits.length / 20) 20
          ++ (if hits.length % 20 = 0 then [] else [hits.length % 20])
    ∧ (batchesOf hits).flatten = hits := by
  intro N
  induction N using Nat.strong_induction_on with
  | _ N ih =>
    intro hits hN
    have h0 := accum_general hits [] 0 rfl (by omega)
    simp only [Nat.zero_add, List.nil_append, Nat.sub_zero] at h0
    by_cases hz : hits.length = 0
    · have : hits = [] := List.eq_nil_of_length_eq_zero hz
      subst this
      simp [batchesOf, accumulateBatches]
    · by_cases hlt : hits.length < 20
      · have hone : batchesOf hits = [hits] := by
          rw [batchesOf, h0, if_neg hz, if_pos hlt]
        rw [hone]
        refine ⟨?_, by simp⟩
        simp [Nat.div_eq_of_lt hlt, Nat.mod_eq_of_lt hlt, hz]
      · have hge : 20 ≤ hits.length := by omega
        have hstep : batchesOf hits = hits.take 20 :: batchesOf (hits.drop 20) := by
          rw [batchesOf, h0, if_neg hz, if_neg hlt, batchesOf]
        have hdlen : (hits.drop 20).length = hits.length - 20 := by simp
        obtain ⟨ihm, ihj⟩ := ih (hits.length - 20) (by omega) (hits.drop 20) hdlen
        constructor
        · rw [hstep]
          simp only [List.map_cons]
          rw [ihm, hdlen]
          have htl : (hits.take 20).length = 20 := by simp; omega
          rw [htl, Nat.div_eq_sub_div (by norm_num) hge, Nat.mod_eq_sub_mod hge]
          simp [List.replicate_succ]
        · rw [hstep]
          simp only [List.flatten_cons]
          rw [ihj]
          exact List.take_append_drop 20 hits

/-- C4: for every input sequence of N hits the accumulator yields
exactly ⌊N/20⌋ full batches of size 20, in order, plus one final
remainder batch of size N mod 20 exactly when N mod 20 > 0; it never
yields an empty batch, and concatenating the batches reproduces the
original hit sequence. -/
theorem c4_batch_accumulator (hits : List Hit) :
    (batchesOf hits).map List.length
        = List.replicate (hits.length / 20) 20
          ++ (if hits.length % 20 = 0 then [] else [hits.length % 20])
    ∧ (batchesOf hits).flatten = hits
    ∧ [] ∉ batchesOf hits := by
  obtain ⟨hm, hj⟩ := batchesOf_spec hits.length hits rfl
  refine ⟨hm, hj, ?_⟩
  intro hmem
  have h0 := List.mem_map_of_mem List.length hmem
  rw [hm] at h0
  simp only [List.length_nil] at h0
  rcases List.mem_append.mp h0 with h | h
  · exact absurd (List.eq_of_mem_replicate h) (by norm_num)
  · by_cases hr : hits.length % 20 = 0
    · simp [hr] at h
    · simp [hr] at h
      omega

/-- One submission grows exactly one of the two lists by one payload. -/
theorem send_mp_hit_len (p : String) (s : Int) (succ fail : List String) :
    (send_mp_hit p s succ fail).1.length + (send_mp_hit p s succ fail).2.length
      = succ.length + fail.length + 1 := by
  rw [send_mp_hit]
  split <;> simp <;> omega

/-- The submission loop grows the two lists by exactly one entry per
batch that the accumulator emits from the same state. -/
theorem mpLoopGo_len (status : Nat → Int) (defaults : List (String × String)) :
    ∀ (rest : List Record) (i : Nat) (cur : List Hit)
      (sf : List String × List String) (calls : Nat), i = cur.length →
      (mpLoopGo status defaults rest i cur sf calls).1.length
        + (mpLoopGo status defaults rest i cur sf calls).2.length
      = sf.1.length + sf.2.length
        + (accumulateBatches (rest.map (build_hit defaults)) i cur).length := by
  intro rest
  induction rest with
  | nil =>
    intro i cur sf calls hi
    simp only [mpLoopGo, List.map_nil, accumulateBatches]
    by_cases h0 : 0 < i
    · rw [if_pos h0, if_pos h0, send_mp_hit_len]
      simp
    · rw [if_neg h0, if_neg h0]
      simp
  | cons row rest ih =>
    intro i cur sf calls hi
    simp only [mpLoopGo, List.map_cons, accumulateBatches]
    by_cases hm : (i + 1) % 20 = 0
    · rw [if_pos hm, if_pos hm]
      rw [ih 0 [] _ _ rfl, send_mp_hit_len]
      simp
      omega
    · rw [if_neg hm, if_neg hm]
      exact ih (i + 1) (cur ++ [build_hit defaults row]) sf calls (by simp [hi])

/-- Ceiling division by 20, written with floor division and remainder. -/
theorem ceil_div20 (N : Nat) :
    N / 20 + (if N % 20 = 0 then 0 else 1) = (N + 19) / 20 := by
  by_cases h : N % 20 = 0 <;> simp [h] <;> omega

/-- C6: every submitted batch payload lands in exactly one of the two
lists, so after all submissions the list lengths sum to the total
number of batches, ceil(totalHits / 20). -/
theorem c6_partition (status : Nat → Int) (defaults : List (String × String))
    (df : List Record) :
    (∀ (p : String) (s : Int) (succ fail : List String),
        send_mp_hit p s succ fail = (succ ++ [p], fail)
        ∨ send_mp_hit p s succ fail = (succ, fail ++ [p]))
    ∧ (mpSubmitAll status defaults df).1.length
        + (mpSubmitAll status defaults df).2.length
      = (df.length + 19) / 20 := by
  constructor
  · intro p s succ fail
    rw [send_mp_hit]
    split
    · exact Or.inr rfl
    · exact Or.inl rfl
  · rw [mpSubmitAll, mpLoopGo_len status defaults df 0 [] ([], []) 0 rfl]
    have hlen : (df.map (build_hit defaults)).length = df.length := List.length_map df _
    obtain ⟨hm, _⟩ := batchesOf_spec (df.map (build_hit defaults)).length
      (df.map (build_hit defaults)) rfl
    have hbl : (batchesOf (df.map (build_hit defaults))).length
        = df.length / 20 + (if df.length % 20 = 0 then 0 else 1) := by
      have := congrArg List.length hm
      simp only [List.length_map, List.length_append, List.length_replicate] at this
      rw [this]
      by_cases h : df.length % 20 = 0 <;> simp [h]
    calc ([] : List String).length + ([] : List String).length
          + (accumulateBatches (df.map (build_hit defaults)) 0 []).length
        = (batchesOf (df.map (build_hit defaults))).length := by
          simp [batchesOf]
      _ = df.length / 20 + (if df.length % 20 = 0 then 0 else 1) := hbl
      _ = (df.length + 19) / 20 := ceil_div20 df.length

/-- Inserting a pair permutes with consing it. -/
theorem insertPair_perm (x : String × String) :
    ∀ (l : List (String × String)), (insertPair x l).Perm (x :: l) := by
  intro l
  induction l with
  | nil => simp [insertPair]
  | cons y ys ih =>
    rw [insertPair]
    split
    · exact List.Perm.refl _
    · exact (ih.cons y).trans (List.Perm.swap x y ys)

/-- The key-ascending sort permutes its input. -/
theorem sortPairs_perm (l : List (String × String)) : (sortPairs l).Perm l := by
  induction l with
  | nil => simp [sortPairs]
  | cons a t ih => exact (insertPair_perm a (sortPairs t)).trans (ih.cons a)

/-- Insertion preserves key-ascending sortedness. -/
theorem insertPair_sorted (x : String × String) :
    ∀ (l : List (String × String)),
      l.Sorted (fun a b : String × String => a.1 ≤ b.1) →
      (insertPair x l).Sorted (fun a b : String × String => a.1 ≤ b.1) := by
  intro l
  induction l with
  | nil => intro _; simp [insertPair]
  | cons y ys ih =>
    intro hs
    rw [List.sorted_cons] at hs
    rw [insertPair]
    split
    · rename_i hlt
      rw [List.sorted_cons]
      refine ⟨?_, by rw [List.sorted_cons]; exact hs⟩
      intro b hb
      rcases List.mem_cons.mp hb with rfl | hb2
      · exact le_of_lt hlt
      · exact le_trans (le_of_lt hlt) (hs.1 b hb2)
    · rename_i hnlt
      rw [List.sorted_cons]
      refine ⟨?_, ih hs.2⟩
      intro b hb
      rcases List.mem_cons.mp ((insertPair_perm x ys).mem_iff.mp hb) with rfl | hb2
      · exact not_lt.mp hnlt
      · exact hs.1 b hb2

/-- The key-ascending sort sorts. -/
theorem sortPairs_sorted (l : List (String × String)) :
    (sortPairs l).Sorted (fun a b : String × String => a.1 ≤ b.1) := by
  induction l with
  | nil => simp [sortPairs]
  | cons a t ih => exact insertPair_sorted a (sortPairs t) ih

/-- Determinism of the sort: two permutations of the same pairing with
pairwise-distinct keys sort to the same list. -/
theorem sortPairs_eq_of_perm (p q : List (String × String))
    (hpq : p.Perm q) (hnd : (p.map Prod.fst).Nodup) :
    sortPairs p = sortPairs q := by
  have hperm : (sortPairs p).Perm (sortPairs q) :=
    (sortPairs_perm p).trans (hpq.trans (sortPairs_perm q).symm)
  have hndp : ((sortPairs p).map Prod.fst).Nodup :=
    (((sortPairs_perm p).map Prod.fst).nodup_iff).mpr hnd
  have hndq : ((sortPairs q).map Prod.fst).Nodup :=
    (((sortPairs_perm q).map Prod.fst).nodup_iff).mpr
      ((hpq.map Prod.fst).nodup_iff.mp hnd)
  have hsp : (sortPairs p).Pairwise (fun a b : String × String => a.1 < b.1) :=
    ((sortPairs_sorted p).and (List.pairwise_map.mp hndp)).imp
      (fun h => lt_of_le_of_ne h.1 h.2)
  have hsq : (sortPairs q).Pairwise (fun a b : String × String => a.1 < b.1) :=
    ((sortPairs_sorted q).and (List.pairwise_map.mp hndq)).imp
      (fun h => lt_of_le_of_ne h.1 h.2)
  haveI : IsAntisymm (String × String) (fun a b : String × String => a.1 < b.1) :=
    ⟨fun a b h1 h2 => absurd (h1.trans h2) (lt_irrefl _)⟩
  exact List.eq_of_perm_of_sorted hperm hsp hsq

/-- C5: the hit encoder is deterministic and order-independent: the
pairs are sorted by key ascending before URL-form-encoding, so encoding
the same mapping built in a different key-insertion order yields an
identical payload; the hit {"b": "2", "a": "1"} encodes to "a=1&b=2",
and the per-hit lines of a batch are joined with a newline. -/
theorem c5_encoding_deterministic (p q : Hit) (hpq : p.Perm q)
    (hnd : (p.map Prod.fst).Nodup) :
    prepare_payloads_for_batch_request [p] = prepare_payloads_for_batch_request [q]
    ∧ (sortPairs p).Sorted (fun a b : String × String => a.1 ≤ b.1)
    ∧ (sortPairs p).Perm p
    ∧ prepare_payloads_for_batch_request [[("b", "2"), ("a", "1")]] = "a=1&b=2"
    ∧ prepare_payloads_for_batch_request [[("b", "2"), ("a", "1")], [("a", "1")]]
        = "a=1&b=2" ++ "\n" ++ "a=1" := by
  have hba : ¬ (("b" : String) < "a") := by
    rw [String.lt_iff_toList_lt]; decide
  have hsort : sortPairs [("b", "2"), ("a", "1")] = [("a", "1"), ("b", "2")] := by
    simp [sortPairs, insertPair, hba]
  have hsingle : sortPairs [(("a" : String), ("1" : String))] = [("a", "1")] := rfl
  refine ⟨?_, sortPairs_sorted p, sortPairs_perm p, ?_, ?_⟩
  · have h := sortPairs_eq_of_perm p q hpq hnd
    simp [prepare_payloads_for_batch_request, h]
  · rw [prepare_payloads_for_batch_request]
    simp only [List.map_cons, List.map_nil, hsort]
    decide
  · rw [prepare_payloads_for_batch_request]
    simp only [List.map_cons, List.map_nil, hsort, hsingle]
    decide

/-- Witness for C5: the two insertion orders of {"a": "1", "b": "2"}
produce byte-identical payloads. -/
theorem c5_encoding_deterministic_witness :
    prepare_payloads_for_batch_request [[("b", "2"), ("a", "1")]]
      = prepare_payloads_for_batch_request [[("a", "1"), ("b", "2")]] :=
  (c5_encoding_deterministic [("b", "2"), ("a", "1")] [("a", "1"), ("b", "2")]
    (List.Perm.swap ("a", "1") ("b", "2") []) (by decide)).1


/-- find? distributes over an append, preferring the left list. -/
theorem find?_append_pairs (p : String × String → Bool)
    (l1 l2 : List (String × String)) :
    (l1 ++ l2).find? p
      = match l1.find? p with
        | some a => some a
        | none => l2.find? p := by
  induction l1 with
  | nil => simp
  | cons a t ih =>
    by_cases h : p a
    · simp [List.find?_cons_of_pos _ h]
    · rw [List.cons_append, List.find?_cons_of_neg _ (by simp [h]),
          List.find?_cons_of_neg _ (by simp [h]), ih]

theorem dictGet_cons (x : String × String) (l : List (String × String)) (k : String) :
    dictGet (x :: l) k = if x.1 = k then some x.2 else dictGet l k := by
  by_cases h : x.1 = k
  · rw [dictGet, List.find?_cons_of_pos _ (by simp [h]), if_pos h]
    rfl
  · rw [dictGet, List.find?_cons_of_neg _ (by simp [h]), if_neg h, dictGet]

theorem dictGet_replaceAll (d : List (String × String)) (k v k' : String) :
    dictGet (d.map (fun p => if p.1 == k then (k, v) else p)) k'
      = if k' = k then (dictGet d k).map (fun _ => v) else dictGet d k' := by
  induction d with
  | nil => by_cases hk : k' = k <;> simp [dictGet, hk]
  | cons x t ih =>
    simp only [List.map_cons]
    by_cases hx : x.1 = k
    · rw [if_pos (show (x.1 == k) = true from by simp [hx])]
      by_cases hk : k' = k
      · subst hk
        rw [dictGet_cons, if_pos rfl, if_pos rfl, dictGet_cons, if_pos hx]
        rfl
      · have hx2 : ¬ (x.1 = k') := by rw [hx]; exact fun h => hk h.symm
        rw [dictGet_cons, if_neg (fun h => hk h.symm), ih, if_neg hk, if_neg hk,
            dictGet_cons, if_neg hx2]
    · rw [if_neg (show ¬ (x.1 == k) = true from by simp [hx])]
      by_cases hk : k' = k
      · subst hk
        rw [dictGet_cons, if_neg hx, ih, if_pos rfl, if_pos rfl, dictGet_cons, if_neg hx]
      · by_cases hxk : x.1 = k'
        · rw [dictGet_cons, if_pos hxk, if_neg hk, dictGet_cons, if_pos hxk]
        · rw [dictGet_cons, if_neg hxk, ih, if_neg hk, if_neg hk, dictGet_cons, if_neg hxk]

theorem dictGet_eq_none_iff (d : List (String × String)) (k : String) :
    dictGet d k = none ↔ dictContains d k = false := by
  rw [dictGet, dictContains, Option.map_eq_none', List.find?_eq_none]
  simp

theorem dictGet_append_single (d : List (String × String)) (k v k' : String) :
    dictGet (d ++ [(k, v)]) k'
      = match dictGet d k' with
        | some w => some w
        | none => if k = k' then some v else none := by
  rw [dictGet, find?_append_pairs]
  cases h : d.find? (fun p => p.1 == k') with
  | none =>
    have hd : dictGet d k' = none := by rw [dictGet, h]; rfl
    rw [hd]
    by_cases hk : k = k'
    · rw [List.find?_cons_of_pos _ (by simp [hk]), if_pos hk]
      rfl
    · rw [List.find?_cons_of_neg _ (by simp [hk]), if_neg hk]
      rfl
  | some a =>
    have hd : dictGet d k' = some a.2 := by rw [dictGet, h]; rfl
    rw [hd]
    rfl

theorem dictGet_dictInsert (d : List (String × String)) (k v k' : String) :
    dictGet (dictInsert d k v) k' = if k' = k then some v else dictGet d k' := by
  rw [dictInsert]
  by_cases hc : dictContains d k
  · rw [if_pos hc, dictGet_replaceAll]
    by_cases hk : k' = k
    · rw [if_pos hk, if_pos hk]
      cases ho : dictGet d k with
      | none =>
        exact absurd ((dictGet_eq_none_iff d k).mp ho) (by simp [hc])
      | some w => rfl
    · rw [if_neg hk, if_neg hk]
  · rw [if_neg hc, dictGet_append_single]
    by_cases hk : k' = k
    · subst hk
      have hd : dictGet d k' = none :=
        (dictGet_eq_none_iff d k').mpr (by simpa using hc)
      rw [hd]
    · cases ho : dictGet d k' with
      | none => rw [if_neg hk, if_neg (fun h => hk h.symm)]
      | some w => rw [if_neg hk]

theorem dictGet_foldl_insert (rows : List (String × String)) :
    ∀ (d : List (String × String)) (k : String),
      dictGet (rows.foldl (fun acc p => dictInsert acc p.1 p.2) d) k
        = match rows.reverse.find? (fun p => p.1 == k) with
          | some p => some p.2
          | none => dictGet d k := by
  induction rows with
  | nil => intro d k; simp
  | cons x t ih =>
    intro d k
    simp only [List.foldl_cons, List.reverse_cons]
    rw [ih, find?_append_pairs]
    cases h : t.reverse.find? (fun p => p.1 == k) with
    | some a => rfl
    | none =>
      rw [dictGet_dictInsert]
      by_cases hx : x.1 = k
      · rw [List.find?_cons_of_pos _ (by simp [hx]), if_pos hx.symm]
      · rw [List.find?_cons_of_neg _ (by simp [hx]), if_neg (fun h2 => hx h2.symm)]
        rfl

theorem find?_eq_none_of_key_not_mem (l : List (String × String)) (k : String)
    (h : k ∉ l.map Prod.fst) : l.find? (fun p => p.1 == k) = none := by
  rw [List.find?_eq_none]
  intro x hx
  simp only [beq_iff_eq]
  intro he
  exact h (he ▸ List.mem_map_of_mem Prod.fst hx)

theorem find?_reverse_nodup (l : List (String × String)) (k : String)
    (h : (l.map Prod.fst).Nodup) :
    l.reverse.find? (fun p => p.1 == k) = l.find? (fun p => p.1 == k) := by
  induction l with
  | nil => simp
  | cons x t ih =>
    have h2 := h
    rw [List.map_cons, List.nodup_cons] at h2
    simp only [List.reverse_cons]
    rw [find?_append_pairs, ih h2.2]
    by_cases hk : x.1 = k
    · rw [find?_eq_none_of_key_not_mem t k (hk ▸ h2.1),
          List.find?_cons_of_pos _ (by simp [hk]),
          List.find?_cons_of_pos _ (by simp [hk])]
    · rw [List.find?_cons_of_neg _ (by simp [hk]),
          List.find?_cons_of_neg _ (by simp [hk])]
      cases hf : t.find? (fun p => p.1 == k) <;> rfl

theorem foldl_cond_insert (defaults : List (String × String)) :
    ∀ d, defaults.foldl (fun acc p => if p.2 ≠ "" then dictInsert acc p.1 p.2 else acc) d
      = (defaults.filter (fun p => !(p.2 == ""))).foldl
          (fun acc p => dictInsert acc p.1 p.2) d := by
  induction defaults with
  | nil => intro d; simp
  | cons x t ih =>
    intro d
    rw [List.foldl_cons, List.filter_cons]
    by_cases hx : x.2 = ""
    · rw [if_neg (not_not_intro hx), if_neg (by simp [hx])]
      exact ih d
    · rw [if_pos hx, if_pos (by simp [hx]), List.foldl_cons]
      exact ih (dictInsert d x.1 x.2)

theorem find?_filter_key (l : List (String × String)) (k : String)
    (h : (l.map Prod.fst).Nodup) :
    (l.filter (fun p => !(p.2 == ""))).find? (fun p => p.1 == k)
      = match l.find? (fun p => p.1 == k) with
        | some p => if p.2 = "" then none else some p
        | none => none := by
  induction l with
  | nil => simp
  | cons x t ih =>
    have h2 := h
    rw [List.map_cons, List.nodup_cons] at h2
    by_cases hk : x.1 = k
    · have ht : t.find? (fun p => p.1 == k) = none :=
        find?_eq_none_of_key_not_mem t k (hk ▸ h2.1)
      rw [List.find?_cons_of_pos _ (by simp [hk])]
      by_cases hv : x.2 = ""
      · have htf : (t.filter (fun p => !(p.2 == ""))).find? (fun p => p.1 == k) = none := by
          apply find?_eq_none_of_key_not_mem
          intro hmem
          exact (hk ▸ h2.1) (List.map_subset Prod.fst (List.filter_sublist t).subset hmem)
        rw [List.filter_cons, if_neg (by simp [hv]), htf]
        simp [hv]
      · rw [List.filter_cons, if_pos (by simp [hv]),
            List.find?_cons_of_pos _ (by simp [hk])]
        simp [hv]
    · rw [List.find?_cons_of_neg _ (by simp [hk])]
      by_cases hv : x.2 = ""
      · rw [List.filter_cons, if_neg (by simp [hv]), ih h2.2]
      · rw [List.filter_cons, if_pos (by simp [hv]),
            List.find?_cons_of_neg _ (by simp [hk]), ih h2.2]

theorem dictGet_build_hit (defaults : List (String × String))
    (row : List (String × String)) (k : String)
    (hrow : (row.map Prod.fst).Nodup) (hdef : (defaults.map Prod.fst).Nodup) :
    dictGet (build_hit defaults row) k
      = match dictGet row k with
        | some v => some v
        | none =>
          match dictGet defaults k with
          | some v => if v = "" then none else some v
          | none => none := by
  have hndf : ((defaults.filter (fun p => !(p.2 == ""))).map Prod.fst).Nodup :=
    hdef.sublist ((List.filter_sublist _).map Prod.fst)
  rw [build_hit, dictGet_foldl_insert, find?_reverse_nodup row k hrow,
      foldl_cond_insert, dictGet_foldl_insert,
      find?_reverse_nodup _ k hndf, find?_filter_key defaults k hdef]
  cases hr : row.find? (fun p => p.1 == k) with
  | some p =>
    have hrow2 : dictGet row k = some p.2 := by rw [dictGet, hr]; rfl
    rw [hrow2]
  | none =>
    have hrg : dictGet row k = none := by rw [dictGet, hr]; rfl
    rw [hrg]
    cases hd : defaults.find? (fun p => p.1 == k) with
    | none =>
      have hdg : dictGet defaults k = none := by rw [dictGet, hd]; rfl
      rw [hdg]
      rfl
    | some p =>
      have hdg : dictGet defaults k = some p.2 := by rw [dictGet, hd]; rfl
      rw [hdg]
      by_cases hv : p.2 = "" <;> simp [hv, dictGet]

/-- C7: for every record, the hit built from it contains exactly the
configured default fields whose values are non-empty, overlaid with all
of the record's columns: a key resolves to the record's value when the
record has that column (the record wins on collision), otherwise to the
default's value when that default is non-empty, and to nothing
otherwise — the key set is the union of the included defaults and the
record's columns. -/
theorem c7_hit_construction (defaults : List (String × String)) (row : Record)
    (k : String) (hrow : (row.map Prod.fst).Nodup)
    (hdef : (defaults.map Prod.fst).Nodup) :
    dictGet (build_hit defaults row) k
      = match dictGet row k with
        | some v => some v
        | none =>
          match dictGet defaults k with
          | some v => if v = "" then none else some v
          | none => none :=
  dictGet_build_hit defaults row k hrow hdef

/-- Witness for C7: "t" collides and the record wins, "v" is a kept
non-empty default, "e" is an empty default and is excluded, "cid" is a
record-only column. -/
theorem c7_hit_construction_witness :
    dictGet (build_hit [("v", "1"), ("t", "event"), ("e", "")]
        [("t", "pageview"), ("cid", "7")]) "t" = some "pageview"
    ∧ dictGet (build_hit [("v", "1"), ("t", "event"), ("e", "")]
        [("t", "pageview"), ("cid", "7")]) "v" = some "1"
    ∧ dictGet (build_hit [("v", "1"), ("t", "event"), ("e", "")]
        [("t", "pageview"), ("cid", "7")]) "e" = none
    ∧ dictGet (build_hit [("v", "1"), ("t", "event"), ("e", "")]
        [("t", "pageview"), ("cid", "7")]) "cid" = some "7" :=
  ⟨(c7_hit_construction [("v", "1"), ("t", "event"), ("e", "")]
      [("t", "pageview"), ("cid", "7")] "t" (by decide) (by decide)).trans (by decide),
   (c7_hit_construction [("v", "1"), ("t", "event"), ("e", "")]
      [("t", "pageview"), ("cid", "7")] "v" (by decide) (by decide)).trans (by decide),
   (c7_hit_construction [("v", "1"), ("t", "event"), ("e", "")]
      [("t", "pageview"), ("cid", "7")] "e" (by decide) (by decide)).trans (by decide),
   (c7_hit_construction [("v", "1"), ("t", "event"), ("e", "")]
      [("t", "pageview"), ("cid", "7")] "cid" (by decide) (by decide)).trans (by decide)⟩
